import Mathlib

/-!
Verification development for the github-finds terminal client.

Shallow embedding of the cache subsystem (src/src/utils/cache.ts), the
response failure classifier (src/src/api/client.ts) and the interactive
pagination loops of the repo-list command (src/src/commands/repo.ts) and
the search-repos command (registerSearch). Stateful code is embedded by
explicit state passing over a persisted backing store; the interactive
loop is embedded as a fuel-indexed trace semantics.
-/

/-! ### Cache key builder (cacheKey in src/src/utils/cache.ts) -/

/-- Scalar argument of cacheKey: a string, a number or a boolean.
Absent values (null or undefined) are represented by Option.none at use
sites. Numbers are modelled as integers, matching every call site of the
program, and stringified the way JS String(n) renders an integer. -/
inductive KeyPart where
  | str (v : String)
  | num (v : Int)
  | boolean (v : Bool)
deriving DecidableEq, Repr

/-- JS String(x) conversion for the scalar parts. -/
def KeyPart.toStr : KeyPart → String
  | KeyPart.str v => v
  | KeyPart.num v => toString v
  | KeyPart.boolean v => if v then "true" else "false"

/-- Array.prototype.join with separator written out explicitly:
empty array gives the empty string, otherwise fold the tail onto the
head, inserting the separator before each element. -/
def joinSep : List String → String
  | [] => ""
  | x :: xs => xs.foldl (fun acc p => acc ++ "::" ++ p) x

/-- cacheKey from src/src/utils/cache.ts: filter out null and undefined,
stringify the rest, join with the fixed separator. -/
def cacheKey (parts : List (Option KeyPart)) : String :=
  joinSep ((parts.filterMap id).map KeyPart.toStr)

/-! ### Cache store (src/src/utils/cache.ts) -/

/-- A stored cache entry: opaque payload plus write timestamp in
milliseconds, as in the CacheEntry interface of cache.ts. -/
structure CacheEntry (β : Type) where
  data : β
  ts : Nat
deriving DecidableEq, Repr

/-- TTL_MS from cache.ts: five minutes in milliseconds. -/
def TTL_MS : Nat := 5 * 60 * 1000

/-- The persisted conf backing of the cache store, with fault-injection
flags recording whether the storage layer throws on read, on write, or
on clear. The TypeScript store is a key to entry mapping; it is embedded
as an association list with overwrite-on-set semantics. -/
structure Backing (β : Type) where
  entries : List (String × CacheEntry β)
  getFails : Bool
  setFails : Bool
  clearFails : Bool

/-- Lookup of a key in the backing mapping (Conf store.get). -/
def lookupEntry : List (String × CacheEntry β) → String → Option (CacheEntry β)
  | [], _ => none
  | (k, e) :: rest, key => if k = key then some e else lookupEntry rest key

/-- Removal of a key from the backing mapping (Conf store.delete). -/
def eraseKey : List (String × CacheEntry β) → String → List (String × CacheEntry β)
  | [], _ => []
  | (k, e) :: rest, key =>
      if k = key then eraseKey rest key else (k, e) :: eraseKey rest key

/-- cacheGet from cache.ts. The whole body sits in a try block whose
catch returns null, so a throwing storage layer degrades to a miss with
the store unchanged. An absent entry is a miss; an entry older than
TTL_MS is deleted and reported as a miss; otherwise the stored payload
is returned unchanged. Time is passed explicitly (Date.now()). -/
def cacheGet (b : Backing β) (now : Nat) (key : String) : Option β × Backing β :=
  if b.getFails then (none, b)
  else
    match lookupEntry b.entries key with
    | none => (none, b)
    | some e =>
        if now - e.ts > TTL_MS then
          (none, Backing.mk (eraseKey b.entries key) b.getFails b.setFails b.clearFails)
        else (some e.data, b)

/-- cacheSet from cache.ts. The write sits in a try block with an empty
catch, so a throwing storage layer makes the call a no-op. -/
def cacheSet (b : Backing β) (now : Nat) (key : String) (v : β) : Backing β :=
  if b.setFails then b
  else
    Backing.mk ((key, CacheEntry.mk v now) :: eraseKey b.entries key)
      b.getFails b.setFails b.clearFails

/-- cacheClear from cache.ts. The source calls store.clear() with no
try/catch around it, so a throwing storage layer propagates the failure
to the caller; this is embedded as an Except result. -/
def cacheClear (b : Backing β) : Except Unit (Backing β) :=
  if b.clearFails then Except.error ()
  else Except.ok (Backing.mk [] b.getFails b.setFails b.clearFails)

/-! ### Response failure classifier (friendlyError in src/src/api/client.ts) -/

/-- Substring helpers for the JS String.prototype.includes calls and for
stating the message-content requirements of the spec. -/
def prefMatch : List Char → List Char → Bool
  | [], _ => true
  | _ :: _, [] => false
  | a :: as, b :: bs => a == b && prefMatch as bs

/-- True when the first char list occurs contiguously inside the second. -/
def subMatch (needle : List Char) : List Char → Bool
  | [] => needle.isEmpty
  | b :: bs => prefMatch needle (b :: bs) || subMatch needle bs

/-- String containment, the semantics of JS hay.includes(needle). -/
def containsSub (hay needle : String) : Bool :=
  subMatch needle.data hay.data

/-- Character-wise lowercasing, the semantics of JS toLowerCase on the
ASCII messages this program handles. -/
def lowerStr (s : String) : String :=
  String.mk (s.data.map Char.toLower)

/-- The Error-shaped value friendlyError destructures: the Error message
itself, the optional numeric HTTP status, the optional provider message
at response.data.message, and the optional retry-after header string. -/
structure ErrLike where
  message : String
  status : Option Nat
  respMessage : Option String
  retryAfter : Option String
deriving DecidableEq, Repr

/-- An arbitrary JS value passed to friendlyError: either not an Error
instance (kept as its String(x) rendering) or an Error-shaped value. -/
inductive JsVal where
  | notError (rep : String)
  | isErr (e : ErrLike)
deriving DecidableEq, Repr

/-- The wait-hint fragment of the 403 rate-limit message; an absent or
empty retry-after header is falsy in JS and selects the generic hint. -/
def waitHint : Option String → String
  | some r => if r == "" then " Wait a few minutes." else " Try again in " ++ r ++ "s."
  | none => " Wait a few minutes."

/-- friendlyError from src/src/api/client.ts, branch for branch. Non-Error
inputs are returned as String(err); structured failures are classified by
status with the exact message strings of the source. -/
def friendlyError : JsVal → String
  | JsVal.notError rep => rep
  | JsVal.isErr e =>
    let apiMsg := e.respMessage.getD ""
    if e.status == some 401 then
      "Authentication failed — run `ghf auth login` to refresh your token."
    else if e.status == some 403 then
      if containsSub (lowerStr apiMsg) "rate limit" then
        "API rate limit exceeded." ++ waitHint e.retryAfter
          ++ " Authenticate with a token for higher limits."
      else
        "Forbidden (403) — your token may be missing required scopes."
          ++ (if apiMsg == "" then "" else " GitHub says: " ++ apiMsg)
    else if e.status == some 404 then
      "Not found (404) — check the owner/repo name is correct."
    else if e.status == some 422 then
      "Validation error (422)" ++ (if apiMsg == "" then " — check your input." else ": " ++ apiMsg)
    else if e.status == some 429 then
      "Secondary rate limit hit (429)."
        ++ (match e.retryAfter with
            | some r => if r == "" then "" else " Retry after " ++ r ++ "s."
            | none => "")
    else if e.status == some 451 then
      "Content blocked (451) — this resource is unavailable in your region."
    else if apiMsg == "" then e.message else apiMsg

/-! ### Pagination controller (repo list loop in src/src/commands/repo.ts
and the search repos loop in registerSearch) -/

/-- A repo-search response: the authoritative total_count plus the page
of items, as in the RepoSearchResult type of the search command. -/
structure SearchResult (α : Type) where
  total_count : Nat
  items : List α
deriving DecidableEq, Repr

/-- Observable events of one pagination sequence, in program order:
a page obtained from cache or fetched, the empty-page notice, the table
render, the pager status line, the computed hasMore flag (with the item
count and, for search, the total count it was computed from), the
continuation prompt with the operator answer, and the terminal failure
message printed from the classifier. -/
inductive Ev (α : Type) where
  | cacheHit (page : Nat)
  | fetched (page : Nat)
  | emptyNote
  | rendered (page : Nat) (items : List α)
  | pageInfo (page : Nat) (count : Nat)
  | hasMoreEv (page : Nat) (count : Nat) (hm : Bool)
  | hasMoreSearchEv (page : Nat) (count : Nat) (total : Nat) (hm : Bool)
  | prompted (ans : Bool)
  | failed (page : Nat) (msg : String)
deriving DecidableEq, Repr

/-- Invocation context of the repo list command: the option values, the
clock, the external fetch collaborator (which may throw any JS value),
and the operator answers to successive continuation prompts, indexed by
the page at which the prompt is shown. -/
structure RepoCtx (α : Type) where
  username : Option String
  rtype : String
  sortBy : String
  perPage : Nat
  allPages : Bool
  now : Nat
  fetch : Nat → Except JsVal (List α)
  answers : Nat → Bool

/-- The cache key built by the repo list loop for one page. -/
def repoKey (ctx : RepoCtx α) (page : Nat) : String :=
  cacheKey [some (KeyPart.str "repo.list"), some (KeyPart.str (ctx.username.getD "__me__")),
    some (KeyPart.str ctx.rtype), some (KeyPart.str ctx.sortBy),
    some (KeyPart.num page), some (KeyPart.num ctx.perPage)]

/-- Tail of one repo-list iteration after the page items are available:
the empty-page early break, the render and pager line, the hasMore
computation (items.length == perPage), and the break-or-prompt decision;
an affirmative answer continues with the given continuation. -/
def repoStep (ctx : RepoCtx α) (page : Nat) (repos : List α)
    (b : Backing (List α))
    (next : Backing (List α) → List (Ev α) × Backing (List α)) :
    List (Ev α) × Backing (List α) :=
  if repos.isEmpty then ([Ev.emptyNote], b)
  else
    let hm := repos.length == ctx.perPage
    let tail :=
      if hm && ctx.allPages then
        if ctx.answers page then
          let r := next b
          (Ev.prompted true :: r.1, r.2)
        else ([Ev.prompted false], b)
      else (([] : List (Ev α)), b)
    (Ev.rendered page repos :: Ev.pageInfo page repos.length ::
      Ev.hasMoreEv page repos.length hm :: tail.1, tail.2)

/-- The repo list while loop, fuel-indexed: consult the cache, on a miss
invoke the fetch collaborator (storing a successful page, or printing
the classified message and returning on a thrown failure), then run the
per-page tail, recursing at page+1 when the operator accepts. -/
def runRepoList (ctx : RepoCtx α) : Nat → Nat → Backing (List α) → List (Ev α) × Backing (List α)
  | 0, _, b => ([], b)
  | Nat.succ fuel, page, b =>
    match cacheGet b ctx.now (repoKey ctx page) with
    | (some repos, b1) =>
        let r := repoStep ctx page repos b1 (fun b2 => runRepoList ctx fuel (page + 1) b2)
        (Ev.cacheHit page :: r.1, r.2)
    | (none, b1) =>
        match ctx.fetch page with
        | Except.error e => ([Ev.failed page (friendlyError e)], b1)
        | Except.ok repos =>
            let r := repoStep ctx page repos (cacheSet b1 ctx.now (repoKey ctx page) repos)
              (fun b2 => runRepoList ctx fuel (page + 1) b2)
            (Ev.fetched page :: r.1, r.2)

/-- Invocation context of the search repos command. -/
structure SearchCtx (α : Type) where
  q : String
  sortBy : String
  perPage : Nat
  allPages : Bool
  now : Nat
  fetch : Nat → Except JsVal (SearchResult α)
  answers : Nat → Bool

/-- The cache key built by the search repos loop for one page. -/
def searchKey (ctx : SearchCtx α) (page : Nat) : String :=
  cacheKey [some (KeyPart.str "search.repos"), some (KeyPart.str ctx.q),
    some (KeyPart.str ctx.sortBy), some (KeyPart.num page), some (KeyPart.num ctx.perPage)]

/-- Tail of one search-repos iteration: empty-result early break, render
and pager line, then hasMore computed as
items.length == perPage AND page * perPage < total_count. -/
def searchStep (ctx : SearchCtx α) (page : Nat) (res : SearchResult α)
    (b : Backing (SearchResult α))
    (next : Backing (SearchResult α) → List (Ev α) × Backing (SearchResult α)) :
    List (Ev α) × Backing (SearchResult α) :=
  if res.items.isEmpty then ([Ev.emptyNote], b)
  else
    let hm := (res.items.length == ctx.perPage) && decide (page * ctx.perPage < res.total_count)
    let tail :=
      if hm && ctx.allPages then
        if ctx.answers page then
          let r := next b
          (Ev.prompted true :: r.1, r.2)
        else ([Ev.prompted false], b)
      else (([] : List (Ev α)), b)
    (Ev.rendered page res.items :: Ev.pageInfo page res.items.length ::
      Ev.hasMoreSearchEv page res.items.length res.total_count hm :: tail.1, tail.2)

/-- The search repos while loop, fuel-indexed, mirroring runRepoList but
with the total-count-aware hasMore of the search command. -/
def runSearchRepos (ctx : SearchCtx α) :
    Nat → Nat → Backing (SearchResult α) → List (Ev α) × Backing (SearchResult α)
  | 0, _, b => ([], b)
  | Nat.succ fuel, page, b =>
    match cacheGet b ctx.now (searchKey ctx page) with
    | (some res, b1) =>
        let r := searchStep ctx page res b1 (fun b2 => runSearchRepos ctx fuel (page + 1) b2)
        (Ev.cacheHit page :: r.1, r.2)
    | (none, b1) =>
        match ctx.fetch page with
        | Except.error e => ([Ev.failed page (friendlyError e)], b1)
        | Except.ok res =>
            let r := searchStep ctx page res (cacheSet b1 ctx.now (searchKey ctx page) res)
              (fun b2 => runSearchRepos ctx fuel (page + 1) b2)
            (Ev.fetched page :: r.1, r.2)

/-! ### Trace checkers -/

/-- True only on the terminal failure event. -/
def evIsFail : Ev α → Bool
  | Ev.failed _ _ => true
  | _ => false

/-- True only on the empty-page notice. -/
def evIsEmptyNote : Ev α → Bool
  | Ev.emptyNote => true
  | _ => false

/-- True only on a continuation prompt. -/
def evIsPrompt : Ev α → Bool
  | Ev.prompted _ => true
  | _ => false

/-- Item count and hasMore flag of a repo-list hasMore event. -/
def evHasMoreData : Ev α → Option (Nat × Bool)
  | Ev.hasMoreEv _ n hm => some (n, hm)
  | _ => none

/-- Page, item count, total count and hasMore flag of a search hasMore event. -/
def evHasMoreSearchData : Ev α → Option (Nat × Nat × Nat × Bool)
  | Ev.hasMoreSearchEv p n tc hm => some (p, n, tc, hm)
  | _ => none

/-- Item count and hasMore flag of a hasMore event of either loop. -/
def evCountHm : Ev α → Option (Nat × Bool)
  | Ev.hasMoreEv _ n hm => some (n, hm)
  | Ev.hasMoreSearchEv _ n _ hm => some (n, hm)
  | _ => none

/-- A failure event, if present, is the last event of the trace: nothing
is fetched, rendered or prompted after a failure surfaces. -/
def noEvAfterFail : List (Ev α) → Bool
  | [] => true
  | e :: rest => if evIsFail e then rest.isEmpty else noEvAfterFail rest

/-- Every repo-list hasMore event carries exactly the flag
(count == perPage). -/
def hasMoreMatches (perPage : Nat) : List (Ev α) → Bool
  | [] => true
  | e :: rest =>
      (match evHasMoreData e with
       | some (n, hm) => hm == (n == perPage)
       | none => true) && hasMoreMatches perPage rest

/-- Every search hasMore event carries exactly the flag
(count == perPage && page * perPage < total). -/
def hasMoreSearchMatches (perPage : Nat) : List (Ev α) → Bool
  | [] => true
  | e :: rest =>
      (match evHasMoreSearchData e with
       | some (p, n, tc, hm) => hm == ((n == perPage) && decide (p * perPage < tc))
       | none => true) && hasMoreSearchMatches perPage rest

/-- The head of the list is a continuation prompt. -/
def headIsPrompt : List (Ev α) → Bool
  | e :: _ => evIsPrompt e
  | [] => false

/-- In multi-page mode, every hasMore event whose flag is true is
immediately followed by a continuation prompt. -/
def promptFollows (allPages : Bool) : List (Ev α) → Bool
  | [] => true
  | e :: rest =>
      (match evHasMoreData e with
       | some (_, hm) => if hm && allPages then headIsPrompt rest else true
       | none => true) && promptFollows allPages rest

/-- A page with fewer than perPage items ends the sequence: its hasMore
flag is false and no event at all (in particular no prompt) follows it;
likewise the empty-page notice is terminal. -/
def shortPageStops (perPage : Nat) : List (Ev α) → Bool
  | [] => true
  | e :: rest =>
      if evIsEmptyNote e then rest.isEmpty
      else
        match evCountHm e with
        | some (n, hm) =>
            if n < perPage then hm == false && rest.isEmpty
            else shortPageStops perPage rest
        | none => shortPageStops perPage rest

/-! ### Step lemmas -/

theorem noFail_repoStep (ctx : RepoCtx α) (page : Nat) (repos : List α)
    (b : Backing (List α)) (next : Backing (List α) → List (Ev α) × Backing (List α))
    (hn : ∀ b2, noEvAfterFail (next b2).1 = true) :
    noEvAfterFail (repoStep ctx page repos b next).1 = true := by
  unfold repoStep
  by_cases h1 : repos.isEmpty
  · simp [h1, noEvAfterFail, evIsFail]
  · by_cases h2 : (repos.length == ctx.perPage) && ctx.allPages
    · by_cases h3 : ctx.answers page
      · simp [h1, h2, h3, noEvAfterFail, evIsFail, hn]
      · simp [h1, h2, h3, noEvAfterFail, evIsFail]
    · simp [h1, h2, noEvAfterFail, evIsFail]

theorem hasMore_repoStep (ctx : RepoCtx α) (page : Nat) (repos : List α)
    (b : Backing (List α)) (next : Backing (List α) → List (Ev α) × Backing (List α))
    (hn : ∀ b2, hasMoreMatches ctx.perPage (next b2).1 = true) :
    hasMoreMatches ctx.perPage (repoStep ctx page repos b next).1 = true := by
  unfold repoStep
  by_cases h1 : repos.isEmpty
  · simp [h1, hasMoreMatches, evHasMoreData]
  · by_cases h2 : (repos.length == ctx.perPage) && ctx.allPages
    · by_cases h3 : ctx.answers page
      · simp [h1, h2, h3, hasMoreMatches, evHasMoreData, hn]
      · simp [h1, h2, h3, hasMoreMatches, evHasMoreData]
    · simp [h1, h2, hasMoreMatches, evHasMoreData]

theorem promptFollows_repoStep (ctx : RepoCtx α) (page : Nat) (repos : List α)
    (b : Backing (List α)) (next : Backing (List α) → List (Ev α) × Backing (List α))
    (hn : ∀ b2, promptFollows ctx.allPages (next b2).1 = true) :
    promptFollows ctx.allPages (repoStep ctx page repos b next).1 = true := by
  unfold repoStep
  by_cases h1 : repos.isEmpty
  · simp [h1, promptFollows, evHasMoreData]
  · by_cases h2 : (repos.length == ctx.perPage) && ctx.allPages
    · by_cases h3 : ctx.answers page
      · simp [h1, h2, h3, promptFollows, evHasMoreData, headIsPrompt, evIsPrompt, hn]
      · simp [h1, h2, h3, promptFollows, evHasMoreData, headIsPrompt, evIsPrompt]
    · simp [h1, h2, promptFollows, evHasMoreData, headIsPrompt, evIsPrompt]

theorem shortPage_repoStep (ctx : RepoCtx α) (page : Nat) (repos : List α)
    (b : Backing (List α)) (next : Backing (List α) → List (Ev α) × Backing (List α))
    (hn : ∀ b2, shortPageStops ctx.perPage (next b2).1 = true) :
    shortPageStops ctx.perPage (repoStep ctx page repos b next).1 = true := by
  unfold repoStep
  by_cases h1 : repos.isEmpty
  · simp [h1, shortPageStops, evIsEmptyNote, evCountHm]
  · by_cases hlt : repos.length < ctx.perPage
    · have hne : (repos.length == ctx.perPage) = false := by
        simp [Nat.ne_of_lt hlt]
      simp [h1, hne, hlt, shortPageStops, evIsEmptyNote, evCountHm]
    · by_cases h2 : (repos.length == ctx.perPage) && ctx.allPages
      · by_cases h3 : ctx.answers page
        · simp [h1, h2, h3, hlt, shortPageStops, evIsEmptyNote, evCountHm, hn]
        · simp [h1, h2, h3, hlt, shortPageStops, evIsEmptyNote, evCountHm]
      · simp [h1, h2, hlt, shortPageStops, evIsEmptyNote, evCountHm]

theorem noFail_searchStep (ctx : SearchCtx α) (page : Nat) (res : SearchResult α)
    (b : Backing (SearchResult α))
    (next : Backing (SearchResult α) → List (Ev α) × Backing (SearchResult α))
    (hn : ∀ b2, noEvAfterFail (next b2).1 = true) :
    noEvAfterFail (searchStep ctx page res b next).1 = true := by
  unfold searchStep
  by_cases h1 : res.items.isEmpty
  · simp [h1, noEvAfterFail, evIsFail]
  · by_cases h2 : ((res.items.length == ctx.perPage) && decide (page * ctx.perPage < res.total_count)) && ctx.allPages
    · by_cases h3 : ctx.answers page
      · simp [h1, h2, h3, noEvAfterFail, evIsFail, hn]
      · simp [h1, h2, h3, noEvAfterFail, evIsFail]
    · simp [h1, h2, noEvAfterFail, evIsFail]

theorem hasMoreSearch_searchStep (ctx : SearchCtx α) (page : Nat) (res : SearchResult α)
    (b : Backing (SearchResult α))
    (next : Backing (SearchResult α) → List (Ev α) × Backing (SearchResult α))
    (hn : ∀ b2, hasMoreSearchMatches ctx.perPage (next b2).1 = true) :
    hasMoreSearchMatches ctx.perPage (searchStep ctx page res b next).1 = true := by
  unfold searchStep
  by_cases h1 : res.items.isEmpty
  · simp [h1, hasMoreSearchMatches, evHasMoreSearchData]
  · by_cases h2 : ((res.items.length == ctx.perPage) && decide (page * ctx.perPage < res.total_count)) && ctx.allPages
    · by_cases h3 : ctx.answers page
      · simp [h1, h2, h3, hasMoreSearchMatches, evHasMoreSearchData, hn]
      · simp [h1, h2, h3, hasMoreSearchMatches, evHasMoreSearchData]
    · simp [h1, h2, hasMoreSearchMatches, evHasMoreSearchData]

theorem shortPage_searchStep (ctx : SearchCtx α) (page : Nat) (res : SearchResult α)
    (b : Backing (SearchResult α))
    (next : Backing (SearchResult α) → List (Ev α) × Backing (SearchResult α))
    (hn : ∀ b2, shortPageStops ctx.perPage (next b2).1 = true) :
    shortPageStops ctx.perPage (searchStep ctx page res b next).1 = true := by
  unfold searchStep
  by_cases h1 : res.items.isEmpty
  · simp [h1, shortPageStops, evIsEmptyNote, evCountHm]
  · by_cases hlt : res.items.length < ctx.perPage
    · have hne : (res.items.length == ctx.perPage) = false := by
        simp [Nat.ne_of_lt hlt]
      simp [h1, hne, hlt, shortPageStops, evIsEmptyNote, evCountHm]
    · by_cases h2 : ((res.items.length == ctx.perPage) && decide (page * ctx.perPage < res.total_count)) && ctx.allPages
      · by_cases h3 : ctx.answers page
        · simp [h1, h2, h3, hlt, shortPageStops, evIsEmptyNote, evCountHm, hn]
        · simp [h1, h2, h3, hlt, shortPageStops, evIsEmptyNote, evCountHm]
      · simp [h1, h2, hlt, shortPageStops, evIsEmptyNote, evCountHm]

/-! ### Run lemmas -/

theorem noFail_runRepoList (ctx : RepoCtx α) :
    ∀ fuel page b, noEvAfterFail (runRepoList ctx fuel page b).1 = true := by
  intro fuel
  induction fuel with
  | zero => intro page b; rfl
  | succ n ih =>
    intro page b
    unfold runRepoList
    rcases h : cacheGet b ctx.now (repoKey ctx page) with ⟨o, b1⟩
    cases o with
    | some repos =>
        simp only [noEvAfterFail, evIsFail]
        exact noFail_repoStep ctx page repos b1 _ (fun b2 => ih (page + 1) b2)
    | none =>
        rcases hf : ctx.fetch page with e | repos
        · simp [noEvAfterFail, evIsFail]
        · simp only [noEvAfterFail, evIsFail]
          exact noFail_repoStep ctx page repos _ _ (fun b2 => ih (page + 1) b2)

theorem hasMore_runRepoList (ctx : RepoCtx α) :
    ∀ fuel page b, hasMoreMatches ctx.perPage (runRepoList ctx fuel page b).1 = true := by
  intro fuel
  induction fuel with
  | zero => intro page b; rfl
  | succ n ih =>
    intro page b
    unfold runRepoList
    rcases h : cacheGet b ctx.now (repoKey ctx page) with ⟨o, b1⟩
    cases o with
    | some repos =>
        simp only [hasMoreMatches, evHasMoreData, Bool.true_and]
        exact hasMore_repoStep ctx page repos b1 _ (fun b2 => ih (page + 1) b2)
    | none =>
        rcases hf : ctx.fetch page with e | repos
        · simp [hasMoreMatches, evHasMoreData]
        · simp only [hasMoreMatches, evHasMoreData, Bool.true_and]
          exact hasMore_repoStep ctx page repos _ _ (fun b2 => ih (page + 1) b2)

theorem promptFollows_runRepoList (ctx : RepoCtx α) :
    ∀ fuel page b, promptFollows ctx.allPages (runRepoList ctx fuel page b).1 = true := by
  intro fuel
  induction fuel with
  | zero => intro page b; rfl
  | succ n ih =>
    intro page b
    unfold runRepoList
    rcases h : cacheGet b ctx.now (repoKey ctx page) with ⟨o, b1⟩
    cases o with
    | some repos =>
        simp only [promptFollows, evHasMoreData, Bool.true_and]
        exact promptFollows_repoStep ctx page repos b1 _ (fun b2 => ih (page + 1) b2)
    | none =>
        rcases hf : ctx.fetch page with e | repos
        · simp [promptFollows, evHasMoreData]
        · simp only [promptFollows, evHasMoreData, Bool.true_and]
          exact promptFollows_repoStep ctx page repos _ _ (fun b2 => ih (page + 1) b2)

theorem shortPage_runRepoList (ctx : RepoCtx α) :
    ∀ fuel page b, shortPageStops ctx.perPage (runRepoList ctx fuel page b).1 = true := by
  intro fuel
  induction fuel with
  | zero => intro page b; rfl
  | succ n ih =>
    intro page b
    unfold runRepoList
    rcases h : cacheGet b ctx.now (repoKey ctx page) with ⟨o, b1⟩
    cases o with
    | some repos =>
        simp only [shortPageStops, evIsEmptyNote, evCountHm]
        exact shortPage_repoStep ctx page repos b1 _ (fun b2 => ih (page + 1) b2)
    | none =>
        rcases hf : ctx.fetch page with e | repos
        · simp [shortPageStops, evIsEmptyNote, evCountHm, evIsFail]
        · simp only [shortPageStops, evIsEmptyNote, evCountHm]
          exact shortPage_repoStep ctx page repos _ _ (fun b2 => ih (page + 1) b2)

theorem noFail_runSearchRepos (ctx : SearchCtx α) :
    ∀ fuel page b, noEvAfterFail (runSearchRepos ctx fuel page b).1 = true := by
  intro fuel
  induction fuel with
  | zero => intro page b; rfl
  | succ n ih =>
    intro page b
    unfold runSearchRepos
    rcases h : cacheGet b ctx.now (searchKey ctx page) with ⟨o, b1⟩
    cases o with
    | some res =>
        simp only [noEvAfterFail, evIsFail]
        exact noFail_searchStep ctx page res b1 _ (fun b2 => ih (page + 1) b2)
    | none =>
        rcases hf : ctx.fetch page with e | res
        · simp [noEvAfterFail, evIsFail]
        · simp only [noEvAfterFail, evIsFail]
          exact noFail_searchStep ctx page res _ _ (fun b2 => ih (page + 1) b2)

theorem hasMoreSearch_runSearchRepos (ctx : SearchCtx α) :
    ∀ fuel page b, hasMoreSearchMatches ctx.perPage (runSearchRepos ctx fuel page b).1 = true := by
  intro fuel
  induction fuel with
  | zero => intro page b; rfl
  | succ n ih =>
    intro page b
    unfold runSearchRepos
    rcases h : cacheGet b ctx.now (searchKey ctx page) with ⟨o, b1⟩
    cases o with
    | some res =>
        simp only [hasMoreSearchMatches, evHasMoreSearchData, Bool.true_and]
        exact hasMoreSearch_searchStep ctx page res b1 _ (fun b2 => ih (page + 1) b2)
    | none =>
        rcases hf : ctx.fetch page with e | res
        · simp [hasMoreSearchMatches, evHasMoreSearchData]
        · simp only [hasMoreSearchMatches, evHasMoreSearchData, Bool.true_and]
          exact hasMoreSearch_searchStep ctx page res _ _ (fun b2 => ih (page + 1) b2)

theorem shortPage_runSearchRepos (ctx : SearchCtx α) :
    ∀ fuel page b, shortPageStops ctx.perPage (runSearchRepos ctx fuel page b).1 = true := by
  intro fuel
  induction fuel with
  | zero => intro page b; rfl
  | succ n ih =>
    intro page b
    unfold runSearchRepos
    rcases h : cacheGet b ctx.now (searchKey ctx page) with ⟨o, b1⟩
    cases o with
    | some res =>
        simp only [shortPageStops, evIsEmptyNote, evCountHm]
        exact shortPage_searchStep ctx page res b1 _ (fun b2 => ih (page + 1) b2)
    | none =>
        rcases hf : ctx.fetch page with e | res
        · simp [shortPageStops, evIsEmptyNote, evCountHm, evIsFail]
        · simp only [shortPageStops, evIsEmptyNote, evCountHm]
          exact shortPage_searchStep ctx page res _ _ (fun b2 => ih (page + 1) b2)

/-! ### Cache store lemmas -/

theorem lookupEntry_eraseKey (l : List (String × CacheEntry β)) (k : String) :
    lookupEntry (eraseKey l k) k = none := by
  induction l with
  | nil => rfl
  | cons p rest ih =>
      rcases p with ⟨k1, e1⟩
      by_cases h : k1 = k
      · simp [eraseKey, h, ih]
      · simp [eraseKey, lookupEntry, h, ih]

/-- Claim C2: after set(k, v), a get(k) strictly more than the five
minute TTL after the write is a miss and removes the entry, so any
subsequent get(k) is still a miss; a get within the TTL returns the
stored payload unchanged; a get of an absent key is a miss. -/
theorem cacheStore_ttl_expiry (β : Type) (b : Backing β) (k : String) (v : β) (t0 t1 : Nat)
    (hget : b.getFails = false) (hset : b.setFails = false) :
    (t1 - t0 > TTL_MS →
        (cacheGet (cacheSet b t0 k v) t1 k).1 = none ∧
        lookupEntry ((cacheGet (cacheSet b t0 k v) t1 k).2).entries k = none ∧
        ∀ t2, (cacheGet ((cacheGet (cacheSet b t0 k v) t1 k).2) t2 k).1 = none) ∧
    (t1 - t0 ≤ TTL_MS → (cacheGet (cacheSet b t0 k v) t1 k).1 = some v) ∧
    (lookupEntry b.entries k = none → (cacheGet b t1 k).1 = none) := by
  refine ⟨?_, ?_, ?_⟩
  · intro hexp
    refine ⟨?_, ?_, ?_⟩
    · simp [cacheSet, hset, cacheGet, hget, lookupEntry, hexp]
    · simp [cacheSet, hset, cacheGet, hget, lookupEntry, eraseKey, hexp, lookupEntry_eraseKey]
    · intro t2
      simp [cacheSet, hset, cacheGet, hget, lookupEntry, eraseKey, hexp, lookupEntry_eraseKey]
  · intro hle
    have hnot : ¬(t1 - t0 > TTL_MS) := not_lt.mpr hle
    simp [cacheSet, hset, cacheGet, hget, lookupEntry, hnot]
  · intro hnone
    simp [cacheGet, hget, hnone]

/-- Witness for C2 at a concrete store: a write at time 0 read back at
time 300001 (one millisecond past the TTL) misses, and read back at
time 300000 (exactly the TTL) hits. -/
theorem cacheStore_ttl_expiry_witness :
    (cacheGet (cacheSet (Backing.mk ([] : List (String × CacheEntry Nat)) false false false) 0 "k" 7) 300001 "k").1 = none ∧
    (cacheGet (cacheSet (Backing.mk ([] : List (String × CacheEntry Nat)) false false false) 0 "k" 7) 300000 "k").1 = some 7 :=
  ⟨((cacheStore_ttl_expiry Nat _ "k" 7 0 300001 rfl rfl).1 (by decide)).1,
   (cacheStore_ttl_expiry Nat _ "k" 7 0 300000 rfl rfl).2.1 (by decide)⟩

/-- Claim C7: set(k, v) followed immediately by get(k), with no clock
advance, returns exactly the stored payload. -/
theorem cacheStore_roundTrip (β : Type) (b : Backing β) (k : String) (v : β) (t : Nat)
    (hget : b.getFails = false) (hset : b.setFails = false) :
    (cacheGet (cacheSet b t k v) t k).1 = some v := by
  simp [cacheSet, hset, cacheGet, hget, lookupEntry, TTL_MS]

/-- Witness for C7 at a concrete store, key and payload. -/
theorem cacheStore_roundTrip_witness :
    (cacheGet (cacheSet (Backing.mk ([] : List (String × CacheEntry Nat)) false false false) 42 "pr.list::acme" 9) 42 "pr.list::acme").1 = some 9 :=
  cacheStore_roundTrip Nat _ "pr.list::acme" 9 42 rfl rfl

/-- Claim C5 as amended: a storage failure during get degrades to a miss
with the store untouched, a storage failure during set degrades to a
no-op, but clear performs no recovery: a storage failure during clear
propagates to the caller, and only a non-failing clear empties the
store. -/
theorem cacheStore_failure_degradation (β : Type) :
    (∀ (b : Backing β) (now : Nat) (k : String), b.getFails = true → cacheGet b now k = (none, b)) ∧
    (∀ (b : Backing β) (now : Nat) (k : String) (v : β), b.setFails = true → cacheSet b now k v = b) ∧
    (∀ b : Backing β, b.clearFails = true → cacheClear b = Except.error ()) ∧
    (∀ b : Backing β, b.clearFails = false →
        cacheClear b = Except.ok (Backing.mk [] b.getFails b.setFails b.clearFails)) := by
  refine ⟨?_, ?_, ?_, ?_⟩ <;> intros <;> simp [cacheGet, cacheSet, cacheClear, *]

/-- Witness for C5 as amended, at concrete failing stores. -/
theorem cacheStore_failure_degradation_witness :
    cacheGet (Backing.mk ([] : List (String × CacheEntry Nat)) true false false) 0 "k" = (none, Backing.mk [] true false false) ∧
    cacheSet (Backing.mk ([] : List (String × CacheEntry Nat)) false true false) 0 "k" 5 = Backing.mk [] false true false ∧
    cacheClear (Backing.mk ([] : List (String × CacheEntry Nat)) false false true) = Except.error () ∧
    cacheClear (Backing.mk ([("a", CacheEntry.mk 1 0)] : List (String × CacheEntry Nat)) false false false) = Except.ok (Backing.mk [] false false false) :=
  ⟨(cacheStore_failure_degradation Nat).1 _ 0 "k" rfl,
   (cacheStore_failure_degradation Nat).2.1 _ 0 "k" 5 rfl,
   (cacheStore_failure_degradation Nat).2.2.1 _ rfl,
   (cacheStore_failure_degradation Nat).2.2.2 _ rfl⟩

/-- Counterexample to C5 as stated: on a store whose clear operation
throws, cacheClear propagates the failure to the caller instead of
completing, because the source wraps get and set in try/catch but not
clear. -/
theorem cacheClear_propagates_counterexample :
    cacheClear (Backing.mk ([] : List (String × CacheEntry Nat)) false false true) = Except.error () := rfl

/-- Claim C6: the key builder joins the stringified non-absent arguments
with the :: separator in order (first conjunct: the concrete example of
the spec), and discarding an absent argument anywhere in the list leaves
the key unchanged (second and third conjuncts). -/
theorem cacheKey_joins_discarding_absent :
    cacheKey [some (KeyPart.str "pr.list"), some (KeyPart.str "acme"), some (KeyPart.str "widgets"),
        some (KeyPart.str "open"), some (KeyPart.num 2), some (KeyPart.num 30)] =
      "pr.list::acme::widgets::open::2::30" ∧
    cacheKey [some (KeyPart.str "pr.list"), none, some (KeyPart.str "x")] =
      cacheKey [some (KeyPart.str "pr.list"), some (KeyPart.str "x")] ∧
    ∀ (l1 l2 : List (Option KeyPart)), cacheKey (l1 ++ none :: l2) = cacheKey (l1 ++ l2) := by
  refine ⟨rfl, rfl, ?_⟩
  intro l1 l2
  simp [cacheKey, List.filterMap_append, List.filterMap_cons]

/-! ### Cache key injectivity on separator-free components -/

/-- The char-level join the key builder performs: elements separated by
two colon characters. -/
def joinC : List (List Char) → List Char
  | [] => []
  | [x] => x
  | x :: y :: xs => x ++ ':' :: ':' :: joinC (y :: xs)

theorem joinC_append_sep (a b : List Char) (rest : List (List Char)) :
    joinC ((a ++ ':' :: ':' :: b) :: rest) = a ++ ':' :: ':' :: joinC (b :: rest) := by
  cases rest with
  | nil => rfl
  | cons r rs => simp [joinC, List.append_assoc]

theorem joinSep_data (xs : List String) : ∀ x : String,
    (xs.foldl (fun acc p => acc ++ "::" ++ p) x).data = joinC (x.data :: xs.map String.data) := by
  induction xs with
  | nil => intro x; simp [joinC]
  | cons y ys ih =>
      intro x
      simp only [List.foldl_cons, List.map_cons]
      rw [ih]
      have hd : (x ++ "::" ++ y).data = x.data ++ ':' :: ':' :: y.data := by
        simp [String.data_append]
      rw [hd, joinC_append_sep]
      rfl

theorem sepSplit (a : List Char) : ∀ (b t1 t2 : List Char), ':' ∉ a → ':' ∉ b →
    a ++ ':' :: t1 = b ++ ':' :: t2 → a = b ∧ t1 = t2 := by
  induction a with
  | nil =>
      intro b t1 t2 _ hb heq
      cases b with
      | nil => simpa using heq
      | cons c bs =>
          simp only [List.nil_append, List.cons_append, List.cons.injEq] at heq
          exact absurd (heq.1 ▸ List.mem_cons_self c bs) hb
  | cons c as ih =>
      intro b t1 t2 ha hb heq
      cases b with
      | nil =>
          simp only [List.nil_append, List.cons_append, List.cons.injEq] at heq
          exact absurd (heq.1.symm ▸ List.mem_cons_self c as) ha
      | cons d bs =>
          simp only [List.cons_append, List.cons.injEq] at heq
          have ha2 : ':' ∉ as := fun hm => ha (List.mem_cons_of_mem c hm)
          have hb2 : ':' ∉ bs := fun hm => hb (List.mem_cons_of_mem d hm)
          have h := ih bs t1 t2 ha2 hb2 heq.2
          exact ⟨by rw [heq.1, h.1], h.2⟩

theorem joinC_inj (l1 : List (List Char)) : ∀ (l2 : List (List Char)),
    (∀ x ∈ l1, ':' ∉ x) → (∀ x ∈ l2, ':' ∉ x) → l1 ≠ [] → l2 ≠ [] →
    joinC l1 = joinC l2 → l1 = l2 := by
  induction l1 with
  | nil => intro l2 _ _ h1 _ _; exact absurd rfl h1
  | cons x xs ih =>
      intro l2 hc1 hc2 _ h2 heq
      cases l2 with
      | nil => exact absurd rfl h2
      | cons y ys =>
          cases xs with
          | nil =>
              cases ys with
              | nil =>
                  simp only [joinC] at heq
                  rw [heq]
              | cons y2 ys2 =>
                  exfalso
                  have hx : ':' ∉ x := hc1 x (List.mem_cons_self x [])
                  simp only [joinC] at heq
                  exact hx (heq ▸ List.mem_append_right y (List.mem_cons_self ':' _))
          | cons x2 xs2 =>
              cases ys with
              | nil =>
                  exfalso
                  have hy : ':' ∉ y := hc2 y (List.mem_cons_self y [])
                  simp only [joinC] at heq
                  exact hy (heq ▸ List.mem_append_right x (List.mem_cons_self ':' _))
              | cons y2 ys2 =>
                  simp only [joinC] at heq
                  have hx : ':' ∉ x := hc1 x (List.mem_cons_self x _)
                  have hy : ':' ∉ y := hc2 y (List.mem_cons_self y _)
                  have h := sepSplit x y (':' :: joinC (x2 :: xs2)) (':' :: joinC (y2 :: ys2)) hx hy heq
                  have hj : joinC (x2 :: xs2) = joinC (y2 :: ys2) := by
                    have := h.2
                    simpa using this
                  have htail := ih (y2 :: ys2)
                    (fun z hz => hc1 z (List.mem_cons_of_mem x hz))
                    (fun z hz => hc2 z (List.mem_cons_of_mem y hz))
                    (List.cons_ne_nil x2 xs2) (List.cons_ne_nil y2 ys2) hj
                  rw [h.1, htail]

theorem mapData_inj (s1 : List String) : ∀ s2 : List String,
    s1.map String.data = s2.map String.data → s1 = s2 := by
  induction s1 with
  | nil =>
      intro s2 h
      cases s2 with
      | nil => rfl
      | cons b bs => simp at h
  | cons a as ih =>
      intro s2 h
      cases s2 with
      | nil => simp at h
      | cons b bs =>
          simp only [List.map_cons, List.cons.injEq] at h
          rw [String.ext h.1, ih bs h.2]

/-- A string that avoids the colon character, so it cannot interfere
with the :: separator of the key builder. -/
def colonFree (s : String) : Prop := ':' ∉ s.data

/-- Claim C8 as amended: on nonempty argument tuples all of whose
stringified components avoid the separator character, the key builder is
injective up to stringification: equal keys force equal stringified
component sequences. Components containing the separator (or distinct
scalars with equal stringification) can collide. -/
theorem cacheKey_injective_on_separator_free (p1 p2 : List KeyPart)
    (h1 : ∀ q ∈ p1, colonFree (KeyPart.toStr q))
    (h2 : ∀ q ∈ p2, colonFree (KeyPart.toStr q))
    (n1 : p1 ≠ []) (n2 : p2 ≠ [])
    (hk : cacheKey (p1.map some) = cacheKey (p2.map some)) :
    p1.map KeyPart.toStr = p2.map KeyPart.toStr := by
  have key_eq : joinSep (p1.map KeyPart.toStr) = joinSep (p2.map KeyPart.toStr) := by
    have e1 : (p1.map some).filterMap id = p1 := by simp
    have e2 : (p2.map some).filterMap id = p2 := by simp
    simpa [cacheKey, e1, e2] using hk
  cases p1 with
  | nil => exact absurd rfl n1
  | cons q1 qs1 =>
      cases p2 with
      | nil => exact absurd rfl n2
      | cons q2 qs2 =>
          apply mapData_inj
          apply joinC_inj
          · intro z hz
            rcases List.mem_map.mp hz with ⟨s, hs, rfl⟩
            rcases List.mem_map.mp hs with ⟨q, hq, rfl⟩
            exact h1 q hq
          · intro z hz
            rcases List.mem_map.mp hz with ⟨s, hs, rfl⟩
            rcases List.mem_map.mp hs with ⟨q, hq, rfl⟩
            exact h2 q hq
          · simp
          · simp
          · have d1 := joinSep_data (qs1.map KeyPart.toStr) (KeyPart.toStr q1)
            have d2 := joinSep_data (qs2.map KeyPart.toStr) (KeyPart.toStr q2)
            have hd := congrArg String.data key_eq
            simp only [List.map_cons, joinSep] at hd ⊢
            rw [d1, d2] at hd
            exact hd

/-- Witness for C8 as amended at a concrete separator-free tuple. -/
theorem cacheKey_injective_witness :
    ([KeyPart.str "pr.list", KeyPart.num 2].map KeyPart.toStr) =
      ([KeyPart.str "pr.list", KeyPart.num 2].map KeyPart.toStr) :=
  cacheKey_injective_on_separator_free [KeyPart.str "pr.list", KeyPart.num 2]
    [KeyPart.str "pr.list", KeyPart.num 2]
    (by intro q hq; fin_cases hq <;> (unfold colonFree; decide))
    (by intro q hq; fin_cases hq <;> (unfold colonFree; decide))
    (List.cons_ne_nil _ _) (List.cons_ne_nil _ _) rfl

/-- Counterexample to C8 as stated: the unescaped separator lets two
distinct argument tuples collide on the same key, here
("pr.list", "a::b") versus ("pr.list", "a", "b"). -/
theorem cacheKey_collision_counterexample :
    ([some (KeyPart.str "pr.list"), some (KeyPart.str "a::b")] ≠
      [some (KeyPart.str "pr.list"), some (KeyPart.str "a"), some (KeyPart.str "b")]) ∧
    cacheKey [some (KeyPart.str "pr.list"), some (KeyPart.str "a::b")] =
      cacheKey [some (KeyPart.str "pr.list"), some (KeyPart.str "a"), some (KeyPart.str "b")] :=
  ⟨by decide, rfl⟩

/-- Claim C3 as amended: status 401 yields the message naming the
re-authentication command; status 403 with a rate-limit provider message
and retry-after 120 yields a message containing 120; status 404 yields a
message containing "not found" up to letter case (the literal message
says "Not found"); an unmapped status with provider message
"weird failure" yields exactly "weird failure". -/
theorem friendlyError_classification :
    (∀ (m : String) (rm ra : Option String),
        containsSub (friendlyError (JsVal.isErr (ErrLike.mk m (some 401) rm ra))) "ghf auth login" = true) ∧
    containsSub (friendlyError (JsVal.isErr (ErrLike.mk "" (some 403) (some "API rate limit exceeded") (some "120")))) "120" = true ∧
    (∀ (m : String) (rm ra : Option String),
        containsSub (lowerStr (friendlyError (JsVal.isErr (ErrLike.mk m (some 404) rm ra)))) "not found" = true) ∧
    (∀ s : Nat, s ∉ ([401, 403, 404, 422, 429, 451] : List Nat) →
        ∀ (m : String) (ra : Option String),
          friendlyError (JsVal.isErr (ErrLike.mk m (some s) (some "weird failure") ra)) = "weird failure") := by
  refine ⟨?_, ?_, ?_, ?_⟩
  · intro m rm ra
    show containsSub "Authentication failed — run `ghf auth login` to refresh your token."
      "ghf auth login" = true
    decide
  · decide
  · intro m rm ra
    show containsSub (lowerStr "Not found (404) — check the owner/repo name is correct.")
      "not found" = true
    decide
  · intro s hs m ra
    simp only [List.mem_cons, List.not_mem_nil, or_false, not_or] at hs
    obtain ⟨h1, h2, h3, h4, h5, h6⟩ := hs
    simp [friendlyError, h1, h2, h3, h4, h5, h6]

/-- Witness for C3 as amended at concrete failures, including the
unmapped status 999. -/
theorem friendlyError_classification_witness :
    containsSub (friendlyError (JsVal.isErr (ErrLike.mk "" (some 401) none none))) "ghf auth login" = true ∧
    friendlyError (JsVal.isErr (ErrLike.mk "boom" (some 999) (some "weird failure") none)) = "weird failure" :=
  ⟨friendlyError_classification.1 "" none none,
   friendlyError_classification.2.2.2 999 (by decide) "boom" none⟩

/-- Counterexample to C3 as stated: the 404 message is
"Not found (404) — check the owner/repo name is correct.", which does
not contain the exact lowercase text "not found". -/
theorem friendlyError_notFound_case_counterexample :
    containsSub (friendlyError (JsVal.isErr (ErrLike.mk "" (some 404) none none))) "not found" = false := by
  decide

/-- Claim C10: the classifier is total on arbitrary inputs; a value that
is not an Error instance is returned as its String conversion, with no
status classification applied. -/
theorem friendlyError_total_on_non_error (rep : String) :
    friendlyError (JsVal.notError rep) = rep := rfl

/-- Claim C4: a fetch failure at any page surfaces exactly the
classifier message for the thrown value and terminates the sequence at
once. First two conjuncts: from any state whose cache misses and whose
fetch throws, the whole remaining run is the single failure event (so
the page is not retried and no prompt is shown). Last two conjuncts: in
every trace of either loop a failure event is the final event, so no
fetch, render or prompt ever follows a failure. -/
theorem fetchFailure_terminal :
    (∀ (α : Type) (ctx : RepoCtx α) (fuel page : Nat) (b b1 : Backing (List α)) (e : JsVal),
        cacheGet b ctx.now (repoKey ctx page) = (none, b1) → ctx.fetch page = Except.error e →
        runRepoList ctx (fuel + 1) page b = ([Ev.failed page (friendlyError e)], b1)) ∧
    (∀ (α : Type) (ctx : SearchCtx α) (fuel page : Nat) (b b1 : Backing (SearchResult α)) (e : JsVal),
        cacheGet b ctx.now (searchKey ctx page) = (none, b1) → ctx.fetch page = Except.error e →
        runSearchRepos ctx (fuel + 1) page b = ([Ev.failed page (friendlyError e)], b1)) ∧
    (∀ (α : Type) (ctx : RepoCtx α) (fuel page : Nat) (b : Backing (List α)),
        noEvAfterFail (runRepoList ctx fuel page b).1 = true) ∧
    (∀ (α : Type) (ctx : SearchCtx α) (fuel page : Nat) (b : Backing (SearchResult α)),
        noEvAfterFail (runSearchRepos ctx fuel page b).1 = true) := by
  refine ⟨?_, ?_, ?_, ?_⟩
  · intro α ctx fuel page b b1 e hmiss herr
    simp [runRepoList, hmiss, herr]
  · intro α ctx fuel page b b1 e hmiss herr
    simp [runSearchRepos, hmiss, herr]
  · intro α ctx fuel page b
    exact noFail_runRepoList ctx fuel page b
  · intro α ctx fuel page b
    exact noFail_runSearchRepos ctx fuel page b

/-- A repo-list context whose fetch always throws a 401 failure, for the
C4 witness. -/
def failCtx : RepoCtx Nat :=
  RepoCtx.mk (some "acme") "all" "updated" 30 true 0
    (fun _ => Except.error (JsVal.isErr (ErrLike.mk "Unauthorized" (some 401) none none)))
    (fun _ => true)

/-- Witness for C4: on an empty cache with a throwing fetch, the whole
run is the single classified failure message. -/
theorem fetchFailure_terminal_witness :
    runRepoList failCtx 5 1 (Backing.mk [] false false false) =
      ([Ev.failed 1 "Authentication failed — run `ghf auth login` to refresh your token."],
        Backing.mk [] false false false) :=
  fetchFailure_terminal.1 Nat failCtx 4 1 (Backing.mk [] false false false)
    (Backing.mk [] false false false)
    (JsVal.isErr (ErrLike.mk "Unauthorized" (some 401) none none)) rfl rfl

/-- Claim C9: a fetched or cached page with fewer than pageSize items
carries hasMore = false and is the last page of the sequence: no event
at all, in particular no continuation prompt, follows its hasMore event,
regardless of the multi-page flag; an empty page is likewise terminal. -/
theorem shortPage_terminates :
    (∀ (α : Type) (ctx : RepoCtx α) (fuel page : Nat) (b : Backing (List α)),
        shortPageStops ctx.perPage (runRepoList ctx fuel page b).1 = true) ∧
    (∀ (α : Type) (ctx : SearchCtx α) (fuel page : Nat) (b : Backing (SearchResult α)),
        shortPageStops ctx.perPage (runSearchRepos ctx fuel page b).1 = true) :=
  ⟨fun _ ctx fuel page b => shortPage_runRepoList ctx fuel page b,
   fun _ ctx fuel page b => shortPage_runSearchRepos ctx fuel page b⟩

/-- Claim C1 as amended: the repo listing controller computes hasMore
exactly as items.length == pageSize, and in multi-page mode every page
whose hasMore flag is true is immediately followed by a continuation
prompt; the search-repos controller instead computes hasMore as
items.length == pageSize AND page * pageSize < totalCount, so a full
page at or beyond the reported total does not continue. -/
theorem hasMore_heuristic :
    (∀ (α : Type) (ctx : RepoCtx α) (fuel page : Nat) (b : Backing (List α)),
        hasMoreMatches ctx.perPage (runRepoList ctx fuel page b).1 = true) ∧
    (∀ (α : Type) (ctx : RepoCtx α) (fuel page : Nat) (b : Backing (List α)),
        promptFollows ctx.allPages (runRepoList ctx fuel page b).1 = true) ∧
    (∀ (α : Type) (ctx : SearchCtx α) (fuel page : Nat) (b : Backing (SearchResult α)),
        hasMoreSearchMatches ctx.perPage (runSearchRepos ctx fuel page b).1 = true) :=
  ⟨fun _ ctx fuel page b => hasMore_runRepoList ctx fuel page b,
   fun _ ctx fuel page b => promptFollows_runRepoList ctx fuel page b,
   fun _ ctx fuel page b => hasMoreSearch_runSearchRepos ctx fuel page b⟩

/-- A search-repos context with pageSize 2, multi-page mode on, an
always-affirmative operator, and a fetch returning exactly 2 items with
total_count 2, for the C1 counterexample. -/
def searchCtxEx : SearchCtx Nat :=
  SearchCtx.mk "tetris" "stars" 2 true 0
    (fun _ => Except.ok (SearchResult.mk 2 [10, 20])) (fun _ => true)

/-- Counterexample to C1 as stated: in the search-repos controller with
multi-page mode enabled, a fetch returning exactly pageSize items
computes hasMore = false (page * pageSize is not below total_count) and
the sequence ends with no continuation prompt. -/
theorem hasMore_search_counterexample :
    searchCtxEx.allPages = true ∧ searchCtxEx.perPage = 2 ∧
    (runSearchRepos searchCtxEx 3 1 (Backing.mk [] false false false)).1 =
      [Ev.fetched 1, Ev.rendered 1 [10, 20], Ev.pageInfo 1 2, Ev.hasMoreSearchEv 1 2 2 false] :=
  ⟨rfl, rfl, rfl⟩
